import Mathlib

/-!
Verification of the n8n-updater core (remote update workflow, health
aggregation, version resolution, backup bookkeeping).

The Python sources are shallowly embedded: pure helpers become Lean
functions; the SSH command channel is an environment mapping each command
(call site) to an outcome, with Python exceptions modelled as an explicit
`exn` outcome; SQLite tables become lists of row records.  Strings are
Lean `String`s; Python `\d` is modelled as an ASCII digit (`Char.isDigit`),
which is exact for every input the program produces itself.
-/

namespace NUpdater

/-! ## Version checker (src/version_checker.py) -/

/-- Embedding of the `VersionInfo` dataclass. -/
structure VersionInfo where
  version : String
  major : Nat
  minor : Nat
  patch : Nat
  digest : Option String
  last_updated : Option String
deriving Repr, DecidableEq

/-- Python `re` matching of `SEMVER_PATTERN`: strip at most one trailing
newline (Python `$` also matches just before a final newline). -/
def stripFinalNewline (cs : List Char) : List Char :=
  if cs.getLast? = some '\n' then cs.dropLast else cs

/-- Split a character list on the literal dot, mirroring how
`^(\d+)\.(\d+)\.(\d+)$` decomposes its subject. -/
def splitDot : List Char → List (List Char)
  | [] => [[]]
  | c :: cs =>
    match splitDot cs with
    | [] => [[]]
    | h :: t => if c = '.' then [] :: h :: t else (c :: h) :: t

/-- A `\d+` group followed by `int(...)`: defined iff the character list is a
non-empty run of digits. -/
def charsToNat? (cs : List Char) : Option Nat :=
  if cs ≠ [] ∧ cs.all Char.isDigit then
    some (cs.foldl (fun n c => 10 * n + (c.toNat - 48)) 0)
  else none

/-- Embedding of `VersionInfo.from_tag` (digest and last_updated default to
`None` at the call sites modelled here): the tag must match
`SEMVER_PATTERN`, and the three groups become major/minor/patch. -/
def VersionInfo.from_tag (tag : String) : Option VersionInfo :=
  match splitDot (stripFinalNewline tag.data) with
  | [a, b, c] =>
    match charsToNat? a, charsToNat? b, charsToNat? c with
    | some x, some y, some z =>
      some ⟨tag, x, y, z, none, none⟩
    | _, _, _ => none
  | _ => none

/-- Python `version_str.split(":")[-1]`: the suffix after the last colon. -/
def afterLastColon (s : String) : String :=
  String.mk ((s.data.reverse.takeWhile (fun c => c ≠ ':')).reverse)

/-- Embedding of `parse_version`: drop everything up to the last `:` when a
colon is present, strip leading `v` characters (`lstrip("v")`), then match
the semantic-version pattern. -/
def parse_version (version_str : String) : Option VersionInfo :=
  VersionInfo.from_tag (String.mk
    ((if version_str.data.contains ':' then afterLastColon version_str
      else version_str).data.dropWhile (fun c => c = 'v')))

/-- Embedding of `VersionInfo.__lt__`: lexicographic comparison of the
`(major, minor, patch)` tuples, as Python tuple `<` does. -/
def VersionInfo.ltv (a b : VersionInfo) : Bool :=
  decide (a.major < b.major ∨ (a.major = b.major ∧
    (a.minor < b.minor ∨ (a.minor = b.minor ∧ a.patch < b.patch))))

/-- Embedding of `VersionInfo.__eq__`: equality of the
`(major, minor, patch)` tuples. -/
def VersionInfo.eqv (a b : VersionInfo) : Bool :=
  decide (a.major = b.major ∧ a.minor = b.minor ∧ a.patch = b.patch)

/-- Embedding of `compare_versions`: -1 / 0 / 1, with 0 when either operand
fails to parse. -/
def compare_versions (current latest : String) : Int :=
  match parse_version current, parse_version latest with
  | some current_info, some latest_info =>
    if VersionInfo.ltv current_info latest_info then -1
    else if VersionInfo.eqv current_info latest_info then 0
    else 1
  | _, _ => 0

/-! ### Claims C4, C5, C10 -/

/-- C4: for every pair of version strings where at least one does not parse
as MAJOR.MINOR.PATCH, `compare_versions` returns 0, never -1 or 1. -/
theorem compare_versions_unparsable (a b : String)
    (h : parse_version a = none ∨ parse_version b = none) :
    compare_versions a b = 0 := by
  rcases h with h | h <;>
    cases ha : parse_version a <;>
    cases hb : parse_version b <;>
    simp_all [compare_versions]

/-- Witness for C4 at a concrete input. -/
theorem compare_versions_unparsable_witness :
    parse_version "latest" = none ∧ compare_versions "latest" "1.70.0" = 0 := by
  refine ⟨by decide, compare_versions_unparsable "latest" "1.70.0" (Or.inl (by decide))⟩

/-- C5: for all version strings a and b that both parse,
`compare_versions a b = -(compare_versions b a)`, and
`compare_versions a a = 0`. -/
theorem compare_versions_antisymm (a b : String)
    (ha : (parse_version a).isSome) (hb : (parse_version b).isSome) :
    compare_versions a b = -compare_versions b a ∧ compare_versions a a = 0 := by
  obtain ⟨va, hva⟩ := Option.isSome_iff_exists.mp ha
  obtain ⟨vb, hvb⟩ := Option.isSome_iff_exists.mp hb
  constructor
  · simp only [compare_versions, hva, hvb, VersionInfo.ltv, VersionInfo.eqv]
    split_ifs <;> simp_all <;> omega
  · simp only [compare_versions, hva, VersionInfo.ltv, VersionInfo.eqv]
    split_ifs <;> simp_all

/-- Witness for C5 at concrete inputs. -/
theorem compare_versions_antisymm_witness :
    compare_versions "1.69.0" "1.70.0" = -compare_versions "1.70.0" "1.69.0" ∧
    compare_versions "1.69.0" "1.69.0" = 0 :=
  compare_versions_antisymm "1.69.0" "1.70.0" (by decide) (by decide)

/-- Taking the longest run of characters satisfying `p` from a list whose
suffix starts with a colon stops no later than the colon. -/
theorem takeWhile_append_colon (p : Char → Bool) (xs ys : List Char)
    (hp : p ':' = false) :
    (xs ++ ':' :: ys).takeWhile p = xs.takeWhile p := by
  induction xs with
  | nil => simp [List.takeWhile_cons, hp]
  | cons c cs ih =>
    cases hpc : p c <;> simp [List.takeWhile_cons, hpc, ih]

/-- Lists all of whose characters satisfy `p` are left unchanged by
`takeWhile p`. -/
theorem takeWhile_of_all (p : Char → Bool) (cs : List Char)
    (h : ∀ c ∈ cs, p c = true) : cs.takeWhile p = cs := by
  induction cs with
  | nil => rfl
  | cons c cs ih =>
    have hc := h c (List.mem_cons_self c cs)
    have ht := ih fun x hx => h x (List.mem_cons_of_mem c hx)
    simp [List.takeWhile_cons, hc, ht]

/-- Specialization of `takeWhile_append_colon` to the predicate used by
`afterLastColon`. -/
theorem takeWhile_ne_colon_append (xs ys : List Char) :
    (xs ++ ':' :: ys).takeWhile (fun c => decide (c ≠ ':')) =
      xs.takeWhile (fun c => decide (c ≠ ':')) :=
  takeWhile_append_colon _ xs ys (by decide)

/-- Conversion from a negative `contains` fact to non-membership. -/
theorem not_mem_of_contains_colon_false (l : List Char)
    (h : l.contains ':' = false) : ':' ∉ l := by
  intro hm
  have h2 : List.elem ':' l = false := h
  rw [List.elem_iff.mpr hm] at h2
  exact Bool.noConfusion h2

/-- A leading `v` character is invisible to `parse_version`: either the
colon-split discards it, or `lstrip("v")` removes it. -/
theorem parse_version_cons_v (s : String) :
    parse_version ("v" ++ s) = parse_version s := by
  have hdata : ("v" ++ s).data = 'v' :: s.data := by
    rw [String.data_append]; rfl
  cases hc : s.data.contains ':' with
  | false =>
    have hc2 : ('v' :: s.data).contains ':' = false := by
      rw [List.contains_cons, hc]
      decide
    simp only [parse_version, hdata, hc, hc2, Bool.false_eq_true, if_false]
    rw [List.dropWhile_cons]
    simp
  | true =>
    have hmem : ':' ∈ s.data := List.mem_of_elem_eq_true hc
    obtain ⟨as, bs, hsplit⟩ := List.append_of_mem hmem
    have hc2 : ('v' :: s.data).contains ':' = true := by
      rw [List.contains_cons, hc]
      decide
    have hrev : ('v' :: s.data).reverse =
        bs.reverse ++ ':' :: (as.reverse ++ ['v']) := by
      rw [List.reverse_cons, hsplit, List.reverse_append, List.reverse_cons]
      simp
    have hrev2 : s.data.reverse = bs.reverse ++ ':' :: as.reverse := by
      rw [hsplit, List.reverse_append, List.reverse_cons]
      simp
    simp only [parse_version, hdata, hc, hc2, if_true, afterLastColon,
      hrev, hrev2]
    rw [takeWhile_ne_colon_append, takeWhile_ne_colon_append]

/-- Everything before the last colon is discarded by `parse_version`. -/
theorem parse_version_after_colon (r s : String) :
    parse_version (r ++ ":" ++ s) = parse_version s := by
  have hdata : (r ++ ":" ++ s).data = r.data ++ ':' :: s.data := by
    rw [String.data_append, String.data_append]
    show r.data ++ [':'] ++ s.data = r.data ++ ':' :: s.data
    simp
  have hmem : ':' ∈ r.data ++ ':' :: s.data := by simp
  have hc : (r.data ++ ':' :: s.data).contains ':' = true := by
    have : List.elem ':' (r.data ++ ':' :: s.data) = true :=
      List.elem_iff.mpr hmem
    exact this
  have hrev : (r.data ++ ':' :: s.data).reverse =
      s.data.reverse ++ ':' :: r.data.reverse := by
    rw [List.reverse_append, List.reverse_cons]
    simp
  cases hcs : s.data.contains ':' with
  | true =>
    have hmem2 : ':' ∈ s.data := List.mem_of_elem_eq_true hcs
    obtain ⟨as, bs, hsplit⟩ := List.append_of_mem hmem2
    have hrev2 : s.data.reverse = bs.reverse ++ ':' :: as.reverse := by
      rw [hsplit, List.reverse_append, List.reverse_cons]
      simp
    have hrevAll : (r.data ++ ':' :: s.data).reverse =
        bs.reverse ++ ':' :: (as.reverse ++ ':' :: r.data.reverse) := by
      rw [hsplit]
      simp
    simp only [parse_version, hdata, hc, hcs, if_true, afterLastColon,
      hrevAll, hrev2]
    rw [takeWhile_ne_colon_append bs.reverse
        (as.reverse ++ ':' :: r.data.reverse),
      takeWhile_ne_colon_append bs.reverse as.reverse]
  | false =>
    have hall : ∀ c ∈ s.data.reverse, (fun c => decide (c ≠ ':')) c = true := by
      intro c hcm
      rw [List.mem_reverse] at hcm
      have hne : c ≠ ':' := by
        intro he
        exact not_mem_of_contains_colon_false s.data hcs (he ▸ hcm)
      simp [hne]
    simp only [parse_version, hdata, hc, hcs, if_true, Bool.false_eq_true,
      if_false, afterLastColon, hrev]
    rw [takeWhile_ne_colon_append, takeWhile_of_all _ _ hall,
      List.reverse_reverse]

/-- C10: `parse_version` normalizes its input before matching, so a parsable
version string compares equal (result 0) to itself prefixed with `v` or with
a colon-free image-reference prefix such as `n8nio/n8n:`. -/
theorem compare_versions_normalized (s r : String)
    (hs : (parse_version s).isSome) (hr : r.data.contains ':' = false) :
    compare_versions ("v" ++ s) s = 0 ∧
    compare_versions (r ++ ":" ++ s) s = 0 := by
  obtain ⟨v, hv⟩ := Option.isSome_iff_exists.mp hs
  have h1 := parse_version_cons_v s
  have h2 := parse_version_after_colon r s
  constructor <;>
    simp [compare_versions, h1, h2, hv, VersionInfo.ltv, VersionInfo.eqv]

/-- Witness for C10 at concrete inputs. -/
theorem compare_versions_normalized_witness :
    (parse_version "1.70.0").isSome ∧
    ("n8nio/n8n" : String).data.contains ':' = false ∧
    compare_versions ("v" ++ "1.70.0") "1.70.0" = 0 ∧
    compare_versions ("n8nio/n8n" ++ ":" ++ "1.70.0") "1.70.0" = 0 := by
  refine ⟨by decide, by decide, ?_, ?_⟩
  · exact (compare_versions_normalized "1.70.0" "n8nio/n8n" (by decide)
      (by decide)).1
  · exact (compare_versions_normalized "1.70.0" "n8nio/n8n" (by decide)
      (by decide)).2

/-! ## Remote command channel (src/ssh_executor.py)

The outcome of one remote command is supplied by an environment: either the
paramiko layer returned an exit status with captured output, or some
exception (connection, authentication, timeout, missing key, ...) was raised
inside the `_exec` closure.  `execute` is the `try/except` wrapper around
that closure. -/

/-- Outcome of attempting one remote command, before the `try/except`
wrapper of `execute` is applied. -/
inductive ExecOutcome where
  | ok (exit_code : Int) (stdout : String) (stderr : String)
  | exn (msg : String)
deriving Repr, DecidableEq

/-- Embedding of the `CommandResult` dataclass. -/
structure CommandResult where
  success : Bool
  stdout : String
  stderr : String
  exit_code : Int
deriving Repr, DecidableEq

/-- Embedding of the `CommandResult.output` property: stripped stdout and
stderr, non-empty parts joined by a newline. -/
def CommandResult.output (r : CommandResult) : String :=
  String.intercalate "\n"
    ((if r.stdout.trim ≠ "" then [r.stdout.trim] else []) ++
      (if r.stderr.trim ≠ "" then [r.stderr.trim] else []))

/-- Embedding of `SSHExecutor.execute`: the command/timeout pair is executed
against the environment; a raised exception becomes a `CommandResult` with
exit code -1 and the exception text in stderr, and an exit status becomes a
normal result with `success = (exit_code == 0)`. -/
def execute (env : String → Nat → ExecOutcome) (command : String)
    (timeout : Nat) : CommandResult :=
  match env command timeout with
  | .ok code out err => ⟨code == 0, out, err, code⟩
  | .exn e => ⟨false, "", e, -1⟩

/-! ### Claim C2 -/

/-- C2: `execute` never raises: it is total, a non-zero exit code is
returned as a normal `CommandResult`, and any exception from the transport
(connection, authentication, timeout) is returned as a `CommandResult` with
exit code -1 and the error text in stderr. -/
theorem execute_never_raises (env : String → Nat → ExecOutcome)
    (command : String) (timeout : Nat) :
    (∀ code out err, env command timeout = ExecOutcome.ok code out err →
      execute env command timeout = ⟨code == 0, out, err, code⟩) ∧
    (∀ e, env command timeout = ExecOutcome.exn e →
      execute env command timeout = ⟨false, "", e, -1⟩) := by
  constructor
  · intro code out err h
    simp [execute, h]
  · intro e h
    simp [execute, h]

/-- Witness for C2 at a concrete environment: a timeout exception and a
non-zero exit code. -/
theorem execute_never_raises_witness :
    execute (fun _ _ => ExecOutcome.exn "Connection timed out") "echo ok" 30 =
      ⟨false, "", "Connection timed out", -1⟩ ∧
    execute (fun _ _ => ExecOutcome.ok 2 "" "boom") "false" 30 =
      ⟨false, "", "boom", 2⟩ :=
  ⟨(execute_never_raises (fun _ _ => ExecOutcome.exn "Connection timed out")
      "echo ok" 30).2 "Connection timed out" rfl,
    (execute_never_raises (fun _ _ => ExecOutcome.ok 2 "" "boom")
      "false" 30).1 2 "" "boom" rfl⟩

/-! ## Server configuration (src/storage.py, `Server` dataclass) -/

/-- Embedding of the `Server` dataclass. -/
structure Server where
  id : Option Int
  name : String
  host : String
  port : Nat
  user : String
  auth_type : String
  ssh_key_path : Option String
  ssh_password : Option String
  n8n_path : String
  n8n_url : Option String
deriving Repr, DecidableEq

/-! ## SSH call sites of the workflows

Each distinct `self.execute(...)` call site of `ssh_executor.py` is one
constructor; call sites whose command string depends on runtime data carry
that data as arguments.  `grepImage1`/`grepImage2` issue the same command
text at two different points of step 4, so they are separate constructors
and the environment may answer them differently. -/

/-- One `execute` call site of the update/health workflows. -/
inductive Cmd where
  | getVerPs
  | getVerDockerPs
  | getVerCli
  | dateCmd
  | findDataCmd
  | mkdirBackup
  | tarBackup (data_backup_path : String) (data_dir : String)
  | cpCompose (compose_backup_path : String)
  | grepImage1
  | sedUpdate1
  | sedUpdate2
  | grepImage2
  | forcePull
  | composePull
  | composeDown
  | composeUp
  | checkRunning
  | echoTest
deriving Repr, DecidableEq

/-- The exact command string issued at each call site (single quotes and
braces written with escape codes). -/
def cmdString (server : Server) : Cmd → String
  | .getVerPs =>
    "cd " ++ server.n8n_path ++
      " && docker compose ps --format json n8n 2>/dev/null || docker-compose ps --format json n8n 2>/dev/null"
  | .getVerDockerPs =>
    "docker ps --filter \x27name=n8n\x27 --format \x27\x7b\x7b.Image\x7d\x7d\x27 | head -1"
  | .getVerCli =>
    "cd " ++ server.n8n_path ++
      " && docker compose exec -T n8n n8n --version 2>/dev/null || docker-compose exec -T n8n n8n --version 2>/dev/null"
  | .dateCmd => "date +%Y%m%d_%H%M%S"
  | .findDataCmd =>
    "\n            cd " ++ server.n8n_path ++ " &&             " ++
      "if [ -d \".n8n\" ]; then echo \".n8n\";             " ++
      "elif [ -d \"n8n_data\" ]; then echo \"n8n_data\";             " ++
      "elif [ -d \"data\" ]; then echo \"data\";             " ++
      "else echo \"\"; fi\n            "
  | .mkdirBackup => "mkdir -p " ++ server.n8n_path ++ "/backups"
  | .tarBackup data_backup_path data_dir =>
    "cd " ++ server.n8n_path ++ " && tar -czf " ++ data_backup_path ++ " " ++
      data_dir ++ " 2>/dev/null"
  | .cpCompose compose_backup_path =>
    "cd " ++ server.n8n_path ++ " && cp docker-compose.yml " ++
      compose_backup_path
  | .grepImage1 =>
    "cd " ++ server.n8n_path ++ " && grep -E \x27image.*n8n\x27 docker-compose.yml"
  | .sedUpdate1 =>
    "cd " ++ server.n8n_path ++
      " && sed -i.bak -E \x27s|docker\\.n8n\\.io/n8nio/n8n(:[^ ]*)?|n8nio/n8n:latest|g\x27 docker-compose.yml"
  | .sedUpdate2 =>
    "cd " ++ server.n8n_path ++
      " && sed -i.bak -E \x27s|([^/])n8nio/n8n(:[^ ]*)?|\\1n8nio/n8n:latest|g\x27 docker-compose.yml"
  | .grepImage2 =>
    "cd " ++ server.n8n_path ++ " && grep -E \x27image.*n8n\x27 docker-compose.yml"
  | .forcePull => "docker pull n8nio/n8n:latest 2>&1"
  | .composePull =>
    "cd " ++ server.n8n_path ++
      " && docker compose pull 2>&1 || docker-compose pull 2>&1"
  | .composeDown =>
    "cd " ++ server.n8n_path ++
      " && docker compose down 2>&1 || docker-compose down 2>&1"
  | .composeUp =>
    "cd " ++ server.n8n_path ++
      " && docker compose up -d 2>&1 || docker-compose up -d 2>&1"
  | .checkRunning =>
    "cd " ++ server.n8n_path ++
      " && docker compose ps --status running 2>/dev/null | grep -q n8n || docker-compose ps 2>/dev/null | grep -q \x27Up\x27"
  | .echoTest => "echo \x27Connection OK\x27"

/-- The timeout passed to `execute` at each call site. -/
def cmdTimeout : Cmd → Nat
  | .getVerPs => 300
  | .getVerDockerPs => 300
  | .getVerCli => 30
  | .dateCmd => 10
  | .findDataCmd => 30
  | .mkdirBackup => 30
  | .tarBackup _ _ => 300
  | .cpCompose _ => 30
  | .grepImage1 => 30
  | .sedUpdate1 => 30
  | .sedUpdate2 => 30
  | .grepImage2 => 30
  | .forcePull => 600
  | .composePull => 600
  | .composeDown => 120
  | .composeUp => 120
  | .checkRunning => 30
  | .echoTest => 30

/-- Environment answering each call site of a workflow run.  Answers are per
call site: the sites that can be reached twice in one run carry distinct
constructors. -/
def SshEnv : Type := Cmd → ExecOutcome

/-- Execution of one call site through the channel of `execute`. -/
def runCmd (env : SshEnv) (server : Server) (c : Cmd) : CommandResult :=
  execute (fun _ _ => env c) (cmdString server c) (cmdTimeout c)

/-- Observable event of a workflow run: a remote command issued, or the
HTTP liveness probe attempted. -/
inductive Ev where
  | cmd (c : Cmd)
  | urlProbe
deriving Repr, DecidableEq

/-! ## Version detection on a server (`SSHExecutor.get_current_version`) -/

/-- Python `s.split("\n")[0]`. -/
def firstLine (s : String) : String :=
  String.mk (s.data.takeWhile (fun c => c ≠ '\n'))

/-- Attempt of `re.search(r"(\d+\.\d+\.\d+)", ...)` anchored at the current
position: a maximal digit run, a dot, a maximal digit run, a dot, a maximal
digit run (digits and the dot are disjoint, so greedy matching needs no
backtracking). -/
def matchVerAt (cs : List Char) : Option (List Char) :=
  let d1 := cs.takeWhile Char.isDigit
  if d1 = [] then none else
  match cs.dropWhile Char.isDigit with
  | '.' :: rest1 =>
    let d2 := rest1.takeWhile Char.isDigit
    if d2 = [] then none else
    match rest1.dropWhile Char.isDigit with
    | '.' :: rest2 =>
      let d3 := rest2.takeWhile Char.isDigit
      if d3 = [] then none else some (d1 ++ '.' :: (d2 ++ '.' :: d3))
    | _ => none
  | _ => none

/-- Python `re.search`: the leftmost position where `matchVerAt` succeeds. -/
def searchVer : List Char → Option (List Char)
  | [] => none
  | c :: cs =>
    match matchVerAt (c :: cs) with
    | some m => some m
    | none => searchVer cs

/-- The n8n-CLI fallback of `get_current_version`: run `n8n --version` and
extract a `\d+.\d+.\d+` substring from its stdout. -/
def versionFromCli (env : SshEnv) (server : Server) : Option String :=
  let r := runCmd env server Cmd.getVerCli
  if r.success ∧ r.stdout.trim ≠ "" then
    match searchVer r.stdout.data with
    | some m => some (String.mk m)
    | none => none
  else none

/-- Embedding of `SSHExecutor.get_current_version`, paired with the trace of
call sites actually executed.  First the compose-ps/docker-ps image tag is
tried (only when it yields a parsable tag does it win), then the CLI. -/
def get_current_version (env : SshEnv) (server : Server) :
    Option String × List Ev :=
  let r0 := runCmd env server Cmd.getVerPs
  let step1 : CommandResult × List Ev :=
    if !r0.success then
      (runCmd env server Cmd.getVerDockerPs,
        [Ev.cmd Cmd.getVerPs, Ev.cmd Cmd.getVerDockerPs])
    else (r0, [Ev.cmd Cmd.getVerPs])
  let r := step1.1
  let tr := step1.2
  if r.success ∧ r.stdout.trim ≠ "" then
    let image := firstLine r.stdout.trim
    if image.data.contains ':' then
      let version := afterLastColon image
      if (parse_version version).isSome then (some version, tr)
      else (versionFromCli env server, tr ++ [Ev.cmd Cmd.getVerCli])
    else (versionFromCli env server, tr ++ [Ev.cmd Cmd.getVerCli])
  else (versionFromCli env server, tr ++ [Ev.cmd Cmd.getVerCli])

/-- Embedding of `SSHExecutor.check_n8n_running`. -/
def check_n8n_running (env : SshEnv) (server : Server) : Bool :=
  (runCmd env server Cmd.checkRunning).success

/-! ## Update workflow (`SSHExecutor.update_n8n`) -/

/-- Embedding of the `UpdateResult` dataclass. -/
structure UpdateResult where
  server_name : String
  server_id : Option Int
  success : Bool
  old_version : Option String
  new_version : Option String
  message : String
  details : String
  compose_backup_path : Option String
  data_backup_path : Option String
  can_rollback : Bool
deriving Repr, DecidableEq

/-- Python truthiness of an `Optional[str]`: `None` and the empty string are
falsy. -/
def pyTruthy : Option String → Bool
  | none => false
  | some s => decide (s ≠ "")

/-- State accumulated by steps 1-4 of `update_n8n` (none of which can return
early: `execute` never raises, command failures of these steps are recorded
or ignored, and the progress callback is swallowed). -/
structure PreState where
  old_version : Option String
  data_backup_path : Option String
  compose_backup_path : Option String
  details_parts : List String
  trace : List Ev
deriving Repr

/-- Steps 1-4 of `update_n8n`: capture the current version, back up the data
directory (best effort), record the config-backup path (the `cp` result is
not inspected by the source), and rewrite the compose file. -/
def stagePre (env : SshEnv) (server : Server) : PreState :=
  let gv := get_current_version env server
  let d1 := ["Old version: " ++ gv.1.getD "unknown"]
  let tsr := runCmd env server Cmd.dateCmd
  let timestamp := if tsr.success then tsr.stdout.trim else "backup"
  let fdr := runCmd env server Cmd.findDataCmd
  let data_dir := if fdr.success then fdr.stdout.trim else ""
  let backup_dir := server.n8n_path ++ "/backups"
  let tr2 := gv.2 ++
    [Ev.cmd Cmd.dateCmd, Ev.cmd Cmd.findDataCmd, Ev.cmd Cmd.mkdirBackup]
  let dataStep : Option String × List String × List Ev :=
    if data_dir ≠ "" then
      let path := backup_dir ++ "/n8n_backup_" ++ timestamp ++ ".tar.gz"
      let br := runCmd env server (Cmd.tarBackup path data_dir)
      if br.success then
        (some path, d1 ++ ["Data backup: " ++ path],
          tr2 ++ [Ev.cmd (Cmd.tarBackup path data_dir)])
      else
        (none, d1 ++ ["Data backup failed (continuing anyway)"],
          tr2 ++ [Ev.cmd (Cmd.tarBackup path data_dir)])
    else (none, d1 ++ ["No data dir found, skipping data backup"], tr2)
  let compose_backup_path := backup_dir ++ "/docker-compose.yml." ++ timestamp
  let d3 := dataStep.2.1 ++ ["Config backup: " ++ compose_backup_path]
  let tr3 := dataStep.2.2 ++ [Ev.cmd (Cmd.cpCompose compose_backup_path)]
  let g1 := runCmd env server Cmd.grepImage1
  let d4a := d3 ++ ["Current: " ++ g1.stdout.trim]
  let g2 := runCmd env server Cmd.grepImage2
  let d4 := d4a ++ ["Updated to: " ++ g2.stdout.trim]
  let tr4 := tr3 ++ [Ev.cmd Cmd.grepImage1, Ev.cmd Cmd.sedUpdate1,
    Ev.cmd Cmd.sedUpdate2, Ev.cmd Cmd.grepImage2]
  ⟨gv.1, dataStep.1, some compose_backup_path, d4, tr4⟩

/-- Embedding of `SSHExecutor.update_n8n` (steps 5-8 after `stagePre`),
paired with the trace of call sites executed.  The `asyncio.sleep(10)`
settle interval has no observable effect in this model, and the `except`
branch of the source is unreachable here because `execute` never raises and
progress-callback failures are swallowed. -/
def update_n8n (env : SshEnv) (server : Server) : UpdateResult × List Ev :=
  let pre := stagePre env server
  let fp := runCmd env server Cmd.forcePull
  let d5 := pre.details_parts ++ (if fp.success then ["Latest image pulled"] else [])
  let pr := runCmd env server Cmd.composePull
  let tr5 := pre.trace ++ [Ev.cmd Cmd.forcePull, Ev.cmd Cmd.composePull]
  if !pr.success then
    (⟨server.name, server.id, false, pre.old_version, none,
      "Failed to pull new image", pr.output,
      pre.compose_backup_path, pre.data_backup_path,
      pyTruthy pre.compose_backup_path⟩, tr5)
  else
    let d6 := d5 ++ ["Image pulled successfully"]
    let dr := runCmd env server Cmd.composeDown
    let tr6 := tr5 ++ [Ev.cmd Cmd.composeDown]
    if !dr.success then
      (⟨server.name, server.id, false, pre.old_version, none,
        "Failed to stop containers", dr.output,
        pre.compose_backup_path, pre.data_backup_path,
        pyTruthy pre.compose_backup_path⟩, tr6)
    else
      let d7 := d6 ++ ["Containers stopped"]
      let ur := runCmd env server Cmd.composeUp
      let tr7 := tr6 ++ [Ev.cmd Cmd.composeUp]
      if !ur.success then
        (⟨server.name, server.id, false, pre.old_version, none,
          "Failed to start containers", ur.output,
          pre.compose_backup_path, pre.data_backup_path,
          pyTruthy pre.compose_backup_path⟩, tr7)
      else
        let d8 := d7 ++ ["Containers started"]
        let tr8 := tr7 ++ [Ev.cmd Cmd.checkRunning]
        if !check_n8n_running env server then
          (⟨server.name, server.id, false, pre.old_version, none,
            "n8n container failed to start",
            String.intercalate "\n" d8,
            pre.compose_backup_path, pre.data_backup_path,
            pyTruthy pre.compose_backup_path⟩, tr8)
        else
          let gv2 := get_current_version env server
          let d9 := d8 ++ ["New version: " ++ gv2.1.getD "unknown"]
          (⟨server.name, server.id, true, pre.old_version, gv2.1,
            "Update completed successfully", String.intercalate "\n" d9,
            pre.compose_backup_path, pre.data_backup_path, false⟩,
            tr8 ++ gv2.2)

/-! ### Claims C1 and C9 -/

/-- Version detection never issues the stop command. -/
theorem composeDown_not_in_gv (env : SshEnv) (server : Server) :
    Ev.cmd Cmd.composeDown ∉ (get_current_version env server).2 := by
  unfold get_current_version
  dsimp only
  repeat' split
  all_goals simp_all

/-- Steps 1-4 never issue the stop command. -/
theorem composeDown_not_in_stagePre (env : SshEnv) (server : Server) :
    Ev.cmd Cmd.composeDown ∉ (stagePre env server).trace := by
  have hgv := composeDown_not_in_gv env server
  unfold stagePre
  dsimp only
  repeat' split
  all_goals simp_all

/-- Step 3 always records the config-backup path, whatever the `cp` exit
status was. -/
theorem stagePre_compose_backup (env : SshEnv) (server : Server) :
    ∃ ts, (stagePre env server).compose_backup_path =
      some (server.n8n_path ++ "/backups" ++ "/docker-compose.yml." ++ ts) :=
  ⟨_, rfl⟩

/-- The recorded config-backup path is a non-empty string, hence truthy. -/
theorem stagePre_compose_truthy (env : SshEnv) (server : Server) :
    pyTruthy (stagePre env server).compose_backup_path = true := by
  obtain ⟨ts, hts⟩ := stagePre_compose_backup env server
  rw [hts]
  unfold pyTruthy
  have hne : server.n8n_path ++ "/backups" ++ "/docker-compose.yml." ++ ts ≠ "" := by
    intro heq
    have hlen := congrArg String.length heq
    rw [String.length_append, String.length_append, String.length_append] at hlen
    have h1 : String.length "/docker-compose.yml." = 20 := rfl
    have h2 : String.length "" = 0 := rfl
    omega
  simp [hne]

/-- C1 (amended): when the compose-pull command fails, `update_n8n` returns
a failed result with message "Failed to pull new image", `can_rollback` is
true (the config-backup path was recorded unconditionally in step 3, without
checking the copy command's exit status), and the stop command was never
executed. -/
theorem update_pull_failure (env : SshEnv) (server : Server)
    (h : (runCmd env server Cmd.composePull).success = false) :
    (update_n8n env server).1.success = false ∧
    (update_n8n env server).1.message = "Failed to pull new image" ∧
    (update_n8n env server).1.can_rollback = true ∧
    Ev.cmd Cmd.composeDown ∉ (update_n8n env server).2 := by
  have htr := composeDown_not_in_stagePre env server
  have hcb := stagePre_compose_truthy env server
  unfold update_n8n
  dsimp only
  rw [if_pos (by simp [h])]
  refine ⟨rfl, rfl, hcb, ?_⟩
  simp [List.mem_append, htr]

/-- Witness for C1 (amended) at a concrete run. -/
theorem update_pull_failure_witness :
    (update_n8n
        (fun c => match c with
          | Cmd.composePull => ExecOutcome.ok 1 "" "pull access denied"
          | _ => ExecOutcome.ok 0 "" "")
        ⟨some 1, "prod", "203.0.113.7", 22, "root", "password", none,
          some "pw", "/opt/n8n", none⟩).1.success = false ∧
    (update_n8n
        (fun c => match c with
          | Cmd.composePull => ExecOutcome.ok 1 "" "pull access denied"
          | _ => ExecOutcome.ok 0 "" "")
        ⟨some 1, "prod", "203.0.113.7", 22, "root", "password", none,
          some "pw", "/opt/n8n", none⟩).1.can_rollback = true := by
  have h := update_pull_failure
    (fun c => match c with
      | Cmd.composePull => ExecOutcome.ok 1 "" "pull access denied"
      | _ => ExecOutcome.ok 0 "" "")
    ⟨some 1, "prod", "203.0.113.7", 22, "root", "password", none,
      some "pw", "/opt/n8n", none⟩
    (by decide)
  exact ⟨h.1, h.2.2.1⟩

/-- Environment of the C1 counterexample run: the config-copy command and
the compose-pull command exit non-zero, everything else exits zero with
empty output. -/
def envC1 : SshEnv := fun c =>
  match c with
  | Cmd.cpCompose _ => ExecOutcome.ok 1 "" "cp: cannot create regular file"
  | Cmd.composePull => ExecOutcome.ok 1 "" "pull access denied"
  | _ => ExecOutcome.ok 0 "" ""

/-- Server of the C1 counterexample run. -/
def srvC1 : Server :=
  ⟨some 1, "prod", "203.0.113.7", 22, "root", "password", none, some "pw",
    "/opt/n8n", none⟩

/-- Counterexample to C1 as stated: in this run the configuration-snapshot
copy command was executed and exited non-zero (the snapshot stage did not
succeed), the pull stage then failed, yet the returned result still has
`can_rollback = true` — the code records the backup path without checking
the copy's exit status, so rollback eligibility is not equivalent to the
snapshot stage having succeeded. -/
theorem update_pull_failure_counterexample :
    (runCmd envC1 srvC1
        (Cmd.cpCompose "/opt/n8n/backups/docker-compose.yml.")).success = false ∧
    (update_n8n envC1 srvC1).2 =
      [Ev.cmd Cmd.getVerPs, Ev.cmd Cmd.getVerCli, Ev.cmd Cmd.dateCmd,
        Ev.cmd Cmd.findDataCmd, Ev.cmd Cmd.mkdirBackup,
        Ev.cmd (Cmd.cpCompose "/opt/n8n/backups/docker-compose.yml."),
        Ev.cmd Cmd.grepImage1, Ev.cmd Cmd.sedUpdate1, Ev.cmd Cmd.sedUpdate2,
        Ev.cmd Cmd.grepImage2, Ev.cmd Cmd.forcePull,
        Ev.cmd Cmd.composePull] ∧
    (update_n8n envC1 srvC1).1.success = false ∧
    (update_n8n envC1 srvC1).1.message = "Failed to pull new image" ∧
    (update_n8n envC1 srvC1).1.can_rollback = true := by
  refine ⟨by decide, by with_unfolding_all rfl, by decide, by rfl, by decide⟩

/-- C9: when the pull, stop and start commands all exit with code zero but
the post-settle liveness probe reports the container not running,
`update_n8n` returns a failed result with message
"n8n container failed to start" (the spec's "failed to start" outcome),
even though no command itself failed. -/
theorem update_verify_failure (env : SshEnv) (server : Server)
    (o1 e1 o2 e2 o3 e3 : String)
    (hpull : env Cmd.composePull = ExecOutcome.ok 0 o1 e1)
    (hdown : env Cmd.composeDown = ExecOutcome.ok 0 o2 e2)
    (hup : env Cmd.composeUp = ExecOutcome.ok 0 o3 e3)
    (hrun : (runCmd env server Cmd.checkRunning).success = false) :
    (update_n8n env server).1.success = false ∧
    (update_n8n env server).1.message = "n8n container failed to start" := by
  have hp : (runCmd env server Cmd.composePull).success = true := by
    simp [runCmd, execute, hpull]
  have hd : (runCmd env server Cmd.composeDown).success = true := by
    simp [runCmd, execute, hdown]
  have hu : (runCmd env server Cmd.composeUp).success = true := by
    simp [runCmd, execute, hup]
  unfold update_n8n
  dsimp only
  rw [if_neg (by simp [hp]), if_neg (by simp [hd]), if_neg (by simp [hu]),
    if_pos (by simp [check_n8n_running, hrun])]
  exact ⟨rfl, rfl⟩

/-- Witness for C9 at a concrete run: every command exits zero but the
liveness probe finds nothing running. -/
theorem update_verify_failure_witness :
    (update_n8n
        (fun c => match c with
          | Cmd.checkRunning => ExecOutcome.ok 1 "" ""
          | _ => ExecOutcome.ok 0 "" "")
        srvC1).1.success = false ∧
    (update_n8n
        (fun c => match c with
          | Cmd.checkRunning => ExecOutcome.ok 1 "" ""
          | _ => ExecOutcome.ok 0 "" "")
        srvC1).1.message = "n8n container failed to start" :=
  update_verify_failure
    (fun c => match c with
      | Cmd.checkRunning => ExecOutcome.ok 1 "" ""
      | _ => ExecOutcome.ok 0 "" "")
    srvC1 "" "" "" "" "" "" rfl rfl rfl (by decide)

/-! ## Health aggregator (`perform_full_health_check`)

The HTTP probe `check_n8n_health` performs network I/O (aiohttp against a
small list of liveness paths); its `(is_healthy, error_message)` outcome is
supplied by the environment here, like the SSH outcomes. -/

/-- Embedding of the `HealthCheckResult` dataclass.  The Python field
`ui_accessible` is annotated `bool` but is assigned `None` when no URL is
configured, so it is an `Option Bool` here. -/
structure HealthCheckResult where
  server_id : Option Int
  server_name : String
  is_healthy : Bool
  ssh_ok : Bool
  container_running : Bool
  ui_accessible : Option Bool
  version : Option String
  error : Option String
deriving Repr, DecidableEq

/-- Embedding of `SSHExecutor.test_connection`: run `echo` and report
`(success, message)`; the `except` branch is unreachable because `execute`
never raises. -/
def test_connection (env : SshEnv) (server : Server) : Bool × String :=
  let r := runCmd env server Cmd.echoTest
  if r.success then (true, "Connection successful")
  else (false, "Command failed: " ++ r.stderr)

/-- Python `f"{x}"` applied to an `Optional[str]`. -/
def pyStr : Option String → String
  | none => "None"
  | some s => s

/-- Embedding of `perform_full_health_check`, paired with the trace of
probes executed.  The result record starts all-false and is mutated at each
probe; each early return captures the fields assigned so far. -/
def perform_full_health_check (env : SshEnv) (urlRes : Bool × Option String)
    (server : Server) : HealthCheckResult × List Ev :=
  let conn := test_connection env server
  if !conn.1 then
    (⟨server.id, server.name, false, false, false, some false, none,
        some ("SSH: " ++ conn.2)⟩,
      [Ev.cmd Cmd.echoTest])
  else
    let running := check_n8n_running env server
    if !running then
      (⟨server.id, server.name, false, true, false, some false, none,
          some "n8n container is not running"⟩,
        [Ev.cmd Cmd.echoTest, Ev.cmd Cmd.checkRunning])
    else
      let gv := get_current_version env server
      let tr := [Ev.cmd Cmd.echoTest, Ev.cmd Cmd.checkRunning] ++ gv.2
      match server.n8n_url with
      | some _ =>
        if !urlRes.1 then
          (⟨server.id, server.name, false, true, true, some false, gv.1,
              some ("UI: " ++ pyStr urlRes.2)⟩,
            tr ++ [Ev.urlProbe])
        else
          (⟨server.id, server.name, true, true, true, some true, gv.1,
              none⟩,
            tr ++ [Ev.urlProbe])
      | none =>
        (⟨server.id, server.name, true, true, true, none, gv.1, none⟩, tr)

/-! ### Claims C3 and C6 -/

/-- Version detection never attempts the HTTP probe. -/
theorem urlProbe_not_in_gv (env : SshEnv) (server : Server) :
    Ev.urlProbe ∉ (get_current_version env server).2 := by
  unfold get_current_version
  dsimp only
  repeat' split
  all_goals simp_all

/-- C3: when the shell-reachability probe fails, the health check reports
overall unhealthy with `ssh_ok`, `container_running` false,
`ui_accessible` still carrying its initial false, the error field holding
the connection-failure text, and no further probe is executed (the trace is
the single echo command). -/
theorem health_check_ssh_failure (env : SshEnv)
    (urlRes : Bool × Option String) (server : Server)
    (h : (runCmd env server Cmd.echoTest).success = false) :
    (perform_full_health_check env urlRes server).1.is_healthy = false ∧
    (perform_full_health_check env urlRes server).1.ssh_ok = false ∧
    (perform_full_health_check env urlRes server).1.container_running = false ∧
    (perform_full_health_check env urlRes server).1.ui_accessible = some false ∧
    (perform_full_health_check env urlRes server).1.error =
      some ("SSH: " ++ ("Command failed: " ++
        (runCmd env server Cmd.echoTest).stderr)) ∧
    (perform_full_health_check env urlRes server).2 = [Ev.cmd Cmd.echoTest] := by
  simp [perform_full_health_check, test_connection, h]

/-- Witness for C3 at a concrete run with an unreachable shell. -/
theorem health_check_ssh_failure_witness :
    (perform_full_health_check
        (fun _ => ExecOutcome.exn "timed out") (true, none) srvC1).1.is_healthy
      = false ∧
    (perform_full_health_check
        (fun _ => ExecOutcome.exn "timed out") (true, none) srvC1).1.error =
      some "SSH: Command failed: timed out" := by
  have h := health_check_ssh_failure (fun _ => ExecOutcome.exn "timed out")
    (true, none) srvC1 (by decide)
  exact ⟨h.1, h.2.2.2.2.1⟩

/-- Environment of the C6 counterexample: the echo probe exits non-zero,
so the health check aborts before the URL step. -/
def envC6 : SshEnv := fun _ => ExecOutcome.ok 1 "" ""

/-- Counterexample to C6 as stated: `srvC1` has no URL configured, yet after
a failed shell probe the returned record carries `ui_accessible = false`
(its initialized value), not the `None` (not-applicable) marker the claim
requires for every no-URL target. -/
theorem health_check_no_url_counterexample :
    srvC1.n8n_url = none ∧
    (perform_full_health_check envC6 (false, none) srvC1).1.ui_accessible =
      some false := by
  exact ⟨rfl, by decide⟩

/-- C6 (amended): with no URL configured the overall healthy flag equals the
conjunction of the shell and liveness probes alone and the URL probe is
never attempted, but the URL sub-result is recorded as `None`
(not-applicable) only when both earlier probes pass; when an earlier probe
fails the record keeps its initialized `ui_accessible = false`. -/
theorem health_check_no_url (env : SshEnv) (urlRes : Bool × Option String)
    (server : Server) (hurl : server.n8n_url = none) :
    (perform_full_health_check env urlRes server).1.is_healthy =
      ((runCmd env server Cmd.echoTest).success &&
        (runCmd env server Cmd.checkRunning).success) ∧
    (((runCmd env server Cmd.echoTest).success &&
        (runCmd env server Cmd.checkRunning).success) = true →
      (perform_full_health_check env urlRes server).1.ui_accessible = none) ∧
    (((runCmd env server Cmd.echoTest).success &&
        (runCmd env server Cmd.checkRunning).success) = false →
      (perform_full_health_check env urlRes server).1.ui_accessible =
        some false) ∧
    Ev.urlProbe ∉ (perform_full_health_check env urlRes server).2 := by
  have hgv := urlProbe_not_in_gv env server
  cases hssh : (runCmd env server Cmd.echoTest).success <;>
    cases hrun : (runCmd env server Cmd.checkRunning).success <;>
      simp_all [perform_full_health_check, test_connection, check_n8n_running,
        hurl]

/-- Witness for C6 (amended) at two concrete no-URL runs: one in which both
probes pass (URL sub-result `none`), and one in which the shell probe passes
but the liveness probe fails (URL sub-result keeps `some false`). -/
theorem health_check_no_url_witness :
    (perform_full_health_check (fun _ => ExecOutcome.ok 0 "" "")
        (false, none) srvC1).1.is_healthy = true ∧
    (perform_full_health_check (fun _ => ExecOutcome.ok 0 "" "")
        (false, none) srvC1).1.ui_accessible = none ∧
    (perform_full_health_check
        (fun c => match c with
          | Cmd.checkRunning => ExecOutcome.ok 1 "" ""
          | _ => ExecOutcome.ok 0 "" "")
        (false, none) srvC1).1.ui_accessible = some false := by
  have h := health_check_no_url (fun _ => ExecOutcome.ok 0 "" "")
    (false, none) srvC1 rfl
  have h2 := health_check_no_url
    (fun c => match c with
      | Cmd.checkRunning => ExecOutcome.ok 1 "" ""
      | _ => ExecOutcome.ok 0 "" "")
    (false, none) srvC1 rfl
  refine ⟨?_, h.2.1 (by decide), h2.2.2.1 (by decide)⟩
  rw [h.1]
  decide

/-! ## Health state persistence (src/storage.py, `server_health` table) -/

/-- One row of the `server_health` table. -/
structure HealthRow where
  server_id : Int
  server_name : String
  is_healthy : Bool
  ssh_ok : Bool
  container_running : Bool
  ui_accessible : Bool
  version : Option String
  last_check : Option Nat
  last_healthy : Option Nat
  error_message : Option String
  consecutive_failures : Nat
  notified : Bool
deriving Repr, DecidableEq

/-- Embedding of `Storage.update_server_health`: `row` is the existing
record for this server (if any) and `now` the current timestamp.  A healthy
result rewrites the row with zeroed failure counter and cleared notified
flag; an unhealthy result increments the counter and leaves `notified` and
`last_healthy` untouched; a fresh insert uses the table defaults
(`notified = 0`) and counter 0 or 1. -/
def update_server_health (row : Option HealthRow) (now : Nat)
    (server_id : Int) (server_name : String) (is_healthy : Bool)
    (error_message : Option String) (ssh_ok : Bool)
    (container_running : Bool) (ui_accessible : Bool)
    (version : Option String) : HealthRow :=
  match row with
  | some r =>
    if is_healthy then
      ⟨r.server_id, r.server_name, true, ssh_ok, container_running,
        ui_accessible, version, some now, some now, none, 0, false⟩
    else
      ⟨r.server_id, r.server_name, false, ssh_ok, container_running,
        ui_accessible, version, some now, r.last_healthy, error_message,
        r.consecutive_failures + 1, r.notified⟩
  | none =>
    ⟨server_id, server_name, is_healthy, ssh_ok, container_running,
      ui_accessible, version, some now,
      if is_healthy then some now else none, error_message,
      if is_healthy then 0 else 1, false⟩

/-! ### Claim C8 -/

/-- C8: the consecutive-failure counter increments by one on every unhealthy
result (from zero when no row existed) and resets to zero on any healthy
result, and the notified flag is false after every healthy result, so the
target is again eligible for alerting. -/
theorem health_counter_spec (row : Option HealthRow) (now : Nat)
    (server_id : Int) (server_name : String) (is_healthy : Bool)
    (error_message : Option String) (ssh_ok : Bool)
    (container_running : Bool) (ui_accessible : Bool)
    (version : Option String) :
    (is_healthy = true →
      (update_server_health row now server_id server_name is_healthy
          error_message ssh_ok container_running ui_accessible
          version).consecutive_failures = 0 ∧
      (update_server_health row now server_id server_name is_healthy
          error_message ssh_ok container_running ui_accessible
          version).notified = false) ∧
    (is_healthy = false →
      (update_server_health row now server_id server_name is_healthy
          error_message ssh_ok container_running ui_accessible
          version).consecutive_failures =
        (match row with
          | some r => r.consecutive_failures
          | none => 0) + 1) := by
  cases row <;> cases is_healthy <;>
    simp [update_server_health]

/-- A notified, thrice-failed prior row used by the C8 witness. -/
def prevRow : HealthRow :=
  ⟨1, "prod", false, false, false, false, none, some 3, none, some "down",
    3, true⟩

/-- Witness for C8 at concrete rows: a healthy result over a notified,
thrice-failed row, and an unhealthy result over the same row. -/
theorem health_counter_spec_witness :
    ((update_server_health (some prevRow) 7 1 "prod" true none true true
        true (some "1.70.0")).consecutive_failures = 0 ∧
      (update_server_health (some prevRow) 7 1 "prod" true none true true
        true (some "1.70.0")).notified = false) ∧
    (update_server_health (some prevRow) 7 1 "prod" false (some "down")
      false false false none).consecutive_failures = 3 + 1 :=
  ⟨(health_counter_spec (some prevRow) 7 1 "prod" true none true true true
      (some "1.70.0")).1 rfl,
    (health_counter_spec (some prevRow) 7 1 "prod" false (some "down")
      false false false none).2 rfl⟩

/-! ## Backup bookkeeping (src/storage.py, `backups` table, and the
per-update retention pass of src/bot/handlers.py `execute_updates`)

The `backups` table is a list of rows in insertion order, with the SQLite
`AUTOINCREMENT` id counter carried alongside.  `created_at` is the SQLite
`CURRENT_TIMESTAMP` at insertion, modelled as a `Nat` supplied by the
caller; `ORDER BY created_at DESC` breaks ties arbitrarily in SQLite, so the
retention theorems assume strictly increasing timestamps (the real system
takes minutes between updates). -/

/-- One row of the `backups` table. -/
structure BackupRow where
  id : Nat
  server_id : Int
  server_name : String
  compose_backup_path : String
  data_backup_path : Option String
  old_version : String
  created_at : Nat
  used : Bool
deriving Repr, DecidableEq

/-- The `backups` table with its autoincrement counter. -/
structure BackupsTable where
  next_id : Nat
  rows : List BackupRow
deriving Repr, DecidableEq

/-- Embedding of `Storage.save_backup_info`: insert a row with the next id,
the current timestamp and `used = 0`, returning the new id. -/
def save_backup_info (t : BackupsTable) (server_id : Int)
    (server_name : String) (compose_backup_path : String)
    (data_backup_path : Option String) (old_version : String) (now : Nat) :
    BackupsTable × Nat :=
  (⟨t.next_id + 1, t.rows ++
      [⟨t.next_id, server_id, server_name, compose_backup_path,
        data_backup_path, old_version, now, false⟩]⟩,
    t.next_id)

/-- Descending insertion by `created_at` (one step of `ORDER BY created_at
DESC`). -/
def insertDesc (r : BackupRow) : List BackupRow → List BackupRow
  | [] => [r]
  | x :: xs =>
    if r.created_at ≥ x.created_at then r :: x :: xs
    else x :: insertDesc r xs

/-- Sorting by `created_at DESC`. -/
def sortByCreatedDesc : List BackupRow → List BackupRow
  | [] => []
  | r :: rs => insertDesc r (sortByCreatedDesc rs)

/-- Embedding of `Storage.delete_old_backups`: delete this server's rows
whose id is not among the `keep_count` most recently created rows of this
server. -/
def delete_old_backups (t : BackupsTable) (server_id : Int)
    (keep_count : Nat) : BackupsTable :=
  let keep_ids := ((sortByCreatedDesc (t.rows.filter
      (fun r => decide (r.server_id = server_id)))).take keep_count).map
    (fun r => r.id)
  ⟨t.next_id, t.rows.filter
    (fun r => decide (¬ r.server_id = server_id ∨ r.id ∈ keep_ids))⟩

/-- The per-update bookkeeping of `execute_updates` when the update produced
a config backup: `save_backup_info` followed by `delete_old_backups` with
keep-count 3. -/
def updatePass (t : BackupsTable) (server_id : Int) (server_name : String)
    (compose_backup_path : String) (data_backup_path : Option String)
    (old_version : String) (now : Nat) : BackupsTable :=
  delete_old_backups
    (save_backup_info t server_id server_name compose_backup_path
      data_backup_path old_version now).1
    server_id 3

/-- The row inserted by the driver `runUpdates` below at a given id and
timestamp. -/
def mkRow (nid : Nat) (sid : Int) (ts : Nat) : BackupRow :=
  ⟨nid, sid, "srv", "cfg", none, "1.69.0", ts, false⟩

/-- A sequence of successful updates on one target: each performs the
insert-then-prune retention pass at its timestamp. -/
def runUpdates (t : BackupsTable) (sid : Int) : List Nat → BackupsTable
  | [] => t
  | ts :: rest => runUpdates (updatePass t sid "srv" "cfg" none "1.69.0" ts)
      sid rest

/-- The rows such a sequence inserts, in insertion order. -/
def insertedRows (nid : Nat) (sid : Int) : List Nat → List BackupRow
  | [] => []
  | ts :: rest => mkRow nid sid ts :: insertedRows (nid + 1) sid rest

/-- The last `n` elements of a list. -/
def lastN (n : Nat) (l : List α) : List α :=
  l.drop (l.length - n)

/-- This server's rows, in table order. -/
def sidRows (t : BackupsTable) (sid : Int) : List BackupRow :=
  t.rows.filter (fun r => decide (r.server_id = sid))

/-- The other servers' rows, in table order. -/
def otherRows (t : BackupsTable) (sid : Int) : List BackupRow :=
  t.rows.filter (fun r => decide (¬ r.server_id = sid))

/-- Well-formedness of the `backups` table: ids strictly increase in table
order and stay below the autoincrement counter, and creation timestamps
strictly increase in table order. -/
def TableInv (t : BackupsTable) : Prop :=
  List.Pairwise (· < ·) (t.rows.map (fun r => r.id)) ∧
  (∀ r ∈ t.rows, r.id < t.next_id) ∧
  List.Pairwise (· < ·) (t.rows.map (fun r => r.created_at))

/-! ### Claim C7: retention lemmas -/

/-- Inserting an element older than everything in the list puts it last. -/
theorem insertDesc_all_lt (r : BackupRow) (m : List BackupRow)
    (h : ∀ x ∈ m, r.created_at < x.created_at) :
    insertDesc r m = m ++ [r] := by
  induction m with
  | nil => rfl
  | cons x xs ih =>
    have hx := h x (List.mem_cons_self x xs)
    rw [insertDesc, if_neg (by omega)]
    rw [ih fun y hy => h y (List.mem_cons_of_mem x hy)]
    rfl

/-- Sorting by `created_at DESC` reverses a list whose timestamps strictly
increase. -/
theorem sortByCreatedDesc_of_sorted (l : List BackupRow)
    (h : List.Pairwise (· < ·) (l.map (fun r => r.created_at))) :
    sortByCreatedDesc l = l.reverse := by
  induction l with
  | nil => rfl
  | cons r rs ih =>
    rw [List.map_cons, List.pairwise_cons] at h
    rw [sortByCreatedDesc, ih h.2, List.reverse_cons]
    exact insertDesc_all_lt r rs.reverse fun x hx =>
      h.1 x.created_at (List.mem_map_of_mem _ (List.mem_reverse.mp hx))

/-- Taking the last `n` of the last `n` with a suffix appended is taking the
last `n` of the whole. -/
theorem lastN_lastN_append (n : Nat) (x y : List α) :
    lastN n (lastN n x ++ y) = lastN n (x ++ y) := by
  unfold lastN
  by_cases hx : x.length ≤ n
  · rw [Nat.sub_eq_zero_of_le hx, List.drop_zero]
  · have hlen : (x.drop (x.length - n)).length = n := by
      rw [List.length_drop]; omega
    rw [List.length_append, List.length_append, hlen]
    by_cases hy : y.length ≤ n
    · rw [List.drop_append_of_le_length (by omega),
        List.drop_append_of_le_length (by omega), List.drop_drop]
      congr 2
      omega
    · have h1 := @List.drop_append α (List.drop (x.length - n) x) y
        (y.length - n)
      rw [hlen] at h1
      have h2 := @List.drop_append α x y (y.length - n)
      have harith : x.length + y.length - n = x.length + (y.length - n) := by
        omega
      have harith2 : n + y.length - n = n + (y.length - n) := by omega
      rw [harith2, h1, harith, h2]

/-- The last `n` of a concatenation lies in the suffix when the suffix is
long enough. -/
theorem lastN_append_of_le (n : Nat) (x y : List α) (h : n ≤ y.length) :
    lastN n (x ++ y) = lastN n y := by
  unfold lastN
  rw [List.length_append, Nat.add_sub_assoc (by omega), List.drop_append]

/-- Length of the last `n` elements. -/
theorem length_lastN (n : Nat) (l : List α) (h : n ≤ l.length) :
    (lastN n l).length = n := by
  unfold lastN
  rw [List.length_drop]
  omega

/-- Filtering a list with strictly increasing ids by membership of the id in
the last `n` ids keeps exactly the last `n` elements. -/
theorem filter_id_mem_lastN (n : Nat) (l : List BackupRow)
    (hid : List.Pairwise (· < ·) (l.map (fun r => r.id)))
    (ids : List Nat)
    (hiff : ∀ x, x ∈ ids ↔ x ∈ (lastN n l).map (fun r => r.id)) :
    l.filter (fun r => decide (r.id ∈ ids)) = lastN n l := by
  have hsplit : l.take (l.length - n) ++ l.drop (l.length - n) = l :=
    List.take_append_drop (l.length - n) l
  have hB : lastN n l = l.drop (l.length - n) := rfl
  conv in List.filter _ l => rw [← hsplit]
  rw [List.filter_append]
  have hBkeep : (l.drop (l.length - n)).filter
      (fun r => decide (r.id ∈ ids)) = l.drop (l.length - n) := by
    rw [List.filter_eq_self]
    intro a ha
    simp only [decide_eq_true_eq]
    exact (hiff a.id).mpr (List.mem_map_of_mem _ (hB ▸ ha))
  have hcross : ∀ a ∈ (l.take (l.length - n)).map (fun r => r.id),
      ∀ b ∈ (l.drop (l.length - n)).map (fun r => r.id), a < b := by
    have : List.Pairwise (· < ·)
        ((l.take (l.length - n)).map (fun r => r.id) ++
          (l.drop (l.length - n)).map (fun r => r.id)) := by
      rw [← List.map_append, hsplit]
      exact hid
    exact (List.pairwise_append.mp this).2.2
  have hAdrop : (l.take (l.length - n)).filter
      (fun r => decide (r.id ∈ ids)) = [] := by
    rw [List.filter_eq_nil_iff]
    intro a ha hmem
    rw [decide_eq_true_eq] at hmem
    obtain ⟨b, hb, hba⟩ := List.mem_map.mp ((hiff a.id).mp hmem)
    have := hcross a.id (List.mem_map_of_mem _ ha) b.id
      (List.mem_map_of_mem _ (hB ▸ hb))
    omega
  rw [hAdrop, hBkeep, List.nil_append, hB]

/-- Pruning keeps exactly the `keep_count` most recent rows of the pruned
server (for a well-ordered table). -/
theorem delete_sidRows (t : BackupsTable) (sid : Int) (k : Nat)
    (hid : List.Pairwise (· < ·) (t.rows.map (fun r => r.id)))
    (hcr : List.Pairwise (· < ·) (t.rows.map (fun r => r.created_at))) :
    sidRows (delete_old_backups t sid k) sid = lastN k (sidRows t sid) := by
  have hcrs : List.Pairwise (· < ·)
      ((sidRows t sid).map (fun r => r.created_at)) :=
    List.Pairwise.sublist (List.Sublist.map _ (List.filter_sublist t.rows)) hcr
  have hids : List.Pairwise (· < ·) ((sidRows t sid).map (fun r => r.id)) :=
    List.Pairwise.sublist (List.Sublist.map _ (List.filter_sublist t.rows)) hid
  have hsort : sortByCreatedDesc (sidRows t sid) = (sidRows t sid).reverse :=
    sortByCreatedDesc_of_sorted _ hcrs
  unfold delete_old_backups
  dsimp only
  unfold sidRows at hsort hids ⊢
  rw [hsort]
  show (List.filter _ _).filter _ = _
  rw [List.filter_filter]
  rw [@List.filter_congr _ _ (fun a : BackupRow =>
    decide (a.id ∈ ((List.take k (t.rows.filter
        (fun r => decide (r.server_id = sid))).reverse).map (fun r => r.id))) &&
    decide (a.server_id = sid)) _
    (by
      intro a _
      by_cases h : a.server_id = sid <;> simp [h])]
  rw [← List.filter_filter]
  refine filter_id_mem_lastN k _ hids _ fun x => ?_
  rw [List.take_reverse]
  unfold lastN
  simp [List.mem_map, List.mem_reverse]

/-- Pruning one server's backups never touches the other servers' rows. -/
theorem delete_otherRows (t : BackupsTable) (sid : Int) (k : Nat) :
    otherRows (delete_old_backups t sid k) sid = otherRows t sid := by
  unfold delete_old_backups otherRows
  dsimp only
  rw [List.filter_filter]
  exact List.filter_congr (by
    intro a _
    by_cases h : a.server_id = sid <;> simp [h])

/-- Pruned rows form a sublist of the table's rows. -/
theorem delete_rows_sublist (t : BackupsTable) (sid : Int) (k : Nat) :
    (delete_old_backups t sid k).rows.Sublist t.rows :=
  List.filter_sublist t.rows

/-- Pruning keeps the autoincrement counter. -/
theorem delete_next_id (t : BackupsTable) (sid : Int) (k : Nat) :
    (delete_old_backups t sid k).next_id = t.next_id := rfl

/-- Inserting this server's fresh row appends it to this server's rows. -/
theorem save_sidRows (t : BackupsTable) (sid : Int) (nm cp : String)
    (dp : Option String) (ov : String) (ts : Nat) :
    sidRows (save_backup_info t sid nm cp dp ov ts).1 sid =
      sidRows t sid ++ [⟨t.next_id, sid, nm, cp, dp, ov, ts, false⟩] := by
  unfold save_backup_info sidRows
  dsimp only
  rw [List.filter_append]
  simp

/-- Inserting this server's fresh row leaves the other servers' rows
unchanged. -/
theorem save_otherRows (t : BackupsTable) (sid : Int) (nm cp : String)
    (dp : Option String) (ov : String) (ts : Nat) :
    otherRows (save_backup_info t sid nm cp dp ov ts).1 sid =
      otherRows t sid := by
  unfold save_backup_info otherRows
  dsimp only
  rw [List.filter_append]
  simp

/-- Inserting a row with a timestamp above the whole table preserves the
table invariant. -/
theorem save_inv (t : BackupsTable) (sid : Int) (nm cp : String)
    (dp : Option String) (ov : String) (ts : Nat)
    (hinv : TableInv t) (hts : ∀ r ∈ t.rows, r.created_at < ts) :
    TableInv (save_backup_info t sid nm cp dp ov ts).1 := by
  obtain ⟨hid, hlt, hcr⟩ := hinv
  refine ⟨?_, ?_, ?_⟩
  · show List.Pairwise _ ((t.rows ++ [_]).map (fun r : BackupRow => r.id))
    rw [List.map_append, List.pairwise_append]
    refine ⟨hid, by simp, ?_⟩
    intro a ha b hb
    obtain ⟨r, hr, hra⟩ := List.mem_map.mp ha
    simp only [List.map_cons, List.map_nil, List.mem_singleton] at hb
    subst hb
    subst hra
    exact hlt r hr
  · intro r hr
    show r.id < t.next_id + 1
    rcases List.mem_append.mp hr with h | h
    · exact Nat.lt_succ_of_lt (hlt r h)
    · simp only [List.mem_singleton] at h
      subst h
      exact Nat.lt_succ_self _
  · show List.Pairwise _ ((t.rows ++ [_]).map (fun r : BackupRow => r.created_at))
    rw [List.map_append, List.pairwise_append]
    refine ⟨hcr, by simp, ?_⟩
    intro a ha b hb
    obtain ⟨r, hr, hra⟩ := List.mem_map.mp ha
    simp only [List.map_cons, List.map_nil, List.mem_singleton] at hb
    subst hb
    subst hra
    exact hts r hr

/-- Pruning preserves the table invariant. -/
theorem delete_inv (t : BackupsTable) (sid : Int) (k : Nat)
    (hinv : TableInv t) : TableInv (delete_old_backups t sid k) := by
  obtain ⟨hid, hlt, hcr⟩ := hinv
  refine ⟨?_, ?_, ?_⟩
  · exact List.Pairwise.sublist
      (List.Sublist.map _ (delete_rows_sublist t sid k)) hid
  · intro r hr
    rw [delete_next_id]
    exact hlt r ((delete_rows_sublist t sid k).mem hr)
  · exact List.Pairwise.sublist
      (List.Sublist.map _ (delete_rows_sublist t sid k)) hcr

/-- One retention pass: the invariant is preserved, the counter advances by
one, all timestamps stay at or below the pass timestamp, the other servers'
rows are untouched, and this server's rows become the last three of its
previous rows with the fresh row appended. -/
theorem updatePass_spec (t : BackupsTable) (sid : Int) (nm cp : String)
    (dp : Option String) (ov : String) (ts : Nat)
    (hinv : TableInv t) (hts : ∀ r ∈ t.rows, r.created_at < ts) :
    TableInv (updatePass t sid nm cp dp ov ts) ∧
    (updatePass t sid nm cp dp ov ts).next_id = t.next_id + 1 ∧
    (∀ r ∈ (updatePass t sid nm cp dp ov ts).rows, r.created_at ≤ ts) ∧
    otherRows (updatePass t sid nm cp dp ov ts) sid = otherRows t sid ∧
    sidRows (updatePass t sid nm cp dp ov ts) sid =
      lastN 3 (sidRows t sid ++ [⟨t.next_id, sid, nm, cp, dp, ov, ts, false⟩]) := by
  have hinv1 : TableInv (save_backup_info t sid nm cp dp ov ts).1 :=
    save_inv t sid nm cp dp ov ts hinv hts
  refine ⟨delete_inv _ sid 3 hinv1, rfl, ?_, ?_, ?_⟩
  · intro r hr
    have hr1 : r ∈ (save_backup_info t sid nm cp dp ov ts).1.rows :=
      (delete_rows_sublist _ sid 3).mem hr
    rcases List.mem_append.mp hr1 with h | h
    · exact Nat.le_of_lt (hts r h)
    · simp only [List.mem_singleton] at h
      subst h
      exact Nat.le_refl ts
  · rw [updatePass, delete_otherRows, save_otherRows]
  · rw [updatePass, delete_sidRows _ sid 3 hinv1.1 hinv1.2.2,
      save_sidRows]

/-- The retention state of one server's rows across passes: each pass
appends the fresh row and keeps the last three. -/
def foldKeep (s : List BackupRow) : List BackupRow → List BackupRow
  | [] => s
  | r :: rows => foldKeep (lastN 3 (s ++ [r])) rows

/-- After at least one pass, the retained rows are the last three of the
full insertion history. -/
theorem foldKeep_eq (s : List BackupRow) (rows : List BackupRow)
    (h : rows ≠ []) : foldKeep s rows = lastN 3 (s ++ rows) := by
  induction rows generalizing s with
  | nil => exact absurd rfl h
  | cons r rest ih =>
    cases rest with
    | nil => rfl
    | cons r2 rest2 =>
      show foldKeep (lastN 3 (s ++ [r])) (r2 :: rest2) = _
      rw [ih _ (by simp), lastN_lastN_append]
      simp [List.append_assoc]

/-- Length of the insertion history. -/
theorem insertedRows_length (sid : Int) (tss : List Nat) :
    ∀ nid, (insertedRows nid sid tss).length = tss.length := by
  induction tss with
  | nil => intro nid; rfl
  | cons ts rest ih =>
    intro nid
    show (mkRow nid sid ts :: insertedRows (nid + 1) sid rest).length = _
    rw [List.length_cons, ih (nid + 1), List.length_cons]

/-- A well-ordered table evolves under a sequence of retention passes: the
other servers' rows are untouched, and this server's rows are the
`foldKeep` of the inserted history. -/
theorem runUpdates_spec (sid : Int) (tss : List Nat) : ∀ t : BackupsTable,
    TableInv t →
    List.Pairwise (· < ·) tss →
    (∀ r ∈ t.rows, ∀ u ∈ tss, r.created_at < u) →
    otherRows (runUpdates t sid tss) sid = otherRows t sid ∧
    sidRows (runUpdates t sid tss) sid =
      foldKeep (sidRows t sid) (insertedRows t.next_id sid tss) := by
  induction tss with
  | nil =>
    intro t _ _ _
    exact ⟨rfl, rfl⟩
  | cons ts rest ih =>
    intro t hinv hp hcross
    rw [List.pairwise_cons] at hp
    have hts : ∀ r ∈ t.rows, r.created_at < ts := fun r hr =>
      hcross r hr ts (List.mem_cons_self ts rest)
    obtain ⟨hinv2, hnid2, hle2, hother2, hsid2⟩ :=
      updatePass_spec t sid "srv" "cfg" none "1.69.0" ts hinv hts
    have hcross2 : ∀ r ∈ (updatePass t sid "srv" "cfg" none "1.69.0" ts).rows,
        ∀ u ∈ rest, r.created_at < u := fun r hr u hu =>
      Nat.lt_of_le_of_lt (hle2 r hr) (hp.1 u hu)
    obtain ⟨ihother, ihsid⟩ :=
      ih (updatePass t sid "srv" "cfg" none "1.69.0" ts) hinv2 hp.2 hcross2
    constructor
    · show otherRows (runUpdates _ sid rest) sid = _
      rw [ihother, hother2]
    · show sidRows (runUpdates _ sid rest) sid = _
      rw [ihsid, hnid2, hsid2]
      rfl

/-! ### Claim C7: counterexample, amended theorem and witness -/

/-- An empty `backups` table (SQLite `AUTOINCREMENT` starts at 1). -/
def btable0 : BackupsTable := ⟨1, []⟩

/-- Counterexample to C7 as stated: in the three-update run
`runUpdates btable0 7 [10, 20, 30]` on a fresh target, the state after the
first update's retention pass holds exactly one backup record for the
target, not three. -/
theorem retention_counterexample :
    runUpdates btable0 7 [10, 20, 30] =
      runUpdates (updatePass btable0 7 "srv" "cfg" none "1.69.0" 10) 7
        [20, 30] ∧
    (sidRows (updatePass btable0 7 "srv" "cfg" none "1.69.0" 10) 7).length
      = 1 :=
  ⟨rfl, rfl⟩

/-- C7 (amended): after a full sequence of at least three successful updates
on one target with keep-count 3 and strictly increasing snapshot
timestamps, exactly 3 backup records remain for that target — the rows
created by the last three updates — and no record of any other target is
deleted; passes before the third of a fresh target leave fewer records
(see the counterexample). -/
theorem retention_keeps_last_three (t0 : BackupsTable) (sid : Int)
    (tss : List Nat) (hinv : TableInv t0)
    (hp : List.Pairwise (· < ·) tss)
    (hcross : ∀ r ∈ t0.rows, ∀ u ∈ tss, r.created_at < u)
    (hn : 3 ≤ tss.length) :
    sidRows (runUpdates t0 sid tss) sid =
      lastN 3 (insertedRows t0.next_id sid tss) ∧
    (sidRows (runUpdates t0 sid tss) sid).length = 3 ∧
    otherRows (runUpdates t0 sid tss) sid = otherRows t0 sid := by
  obtain ⟨hother, hsid⟩ := runUpdates_spec sid tss t0 hinv hp hcross
  have hlen : (insertedRows t0.next_id sid tss).length = tss.length :=
    insertedRows_length sid tss t0.next_id
  have hne : insertedRows t0.next_id sid tss ≠ [] := by
    intro h
    rw [h] at hlen
    simp at hlen
    omega
  rw [hsid, foldKeep_eq _ _ hne,
    lastN_append_of_le 3 _ _ (by rw [hlen]; omega)]
  refine ⟨rfl, ?_, hother⟩
  rw [length_lastN 3 _ (by rw [hlen]; omega)]

/-- A table holding one row of another target, used by the C7 witness. -/
def btableW : BackupsTable :=
  ⟨5, [⟨0, 8, "other", "cfg-other", none, "1.50.0", 1, false⟩]⟩

/-- Witness for C7 (amended) at a concrete four-update run over a table
holding another target's row. -/
theorem retention_keeps_last_three_witness :
    sidRows (runUpdates btableW 7 [10, 20, 30, 40]) 7 =
      lastN 3 (insertedRows btableW.next_id 7 [10, 20, 30, 40]) ∧
    (sidRows (runUpdates btableW 7 [10, 20, 30, 40]) 7).length = 3 ∧
    otherRows (runUpdates btableW 7 [10, 20, 30, 40]) 7 =
      otherRows btableW 7 :=
  retention_keeps_last_three btableW 7 [10, 20, 30, 40]
    (by constructor
        · simp [btableW]
        · constructor
          · intro r hr
            simp [btableW] at hr
            subst hr
            decide
          · simp [btableW])
    (by decide)
    (by
      intro r hr u hu
      simp [btableW] at hr
      subst hr
      simp at hu
      rcases hu with h | h | h | h <;> subst h <;> decide)
    (by decide)

end NUpdater
